import Mathlib

/-!
Verification of `src/clib/pioc_support.c` (PIO support functions).

The development shallowly embeds the C code: every function under scrutiny
is translated into a pure Lean function over explicit state.  External
collaborators (the MPI transport, the netCDF backends, the allocator) are
modelled as oracles: their results are inputs to the embedded functions, and
group-wide coherence (a broadcast delivers the root's value) is stated as a
hypothesis where a claim needs it.  Calls to `piodie` / `MPI_Abort`
(unrecoverable process termination) are modelled by a distinct `fatal`
outcome, so that "returns an error code" and "terminates the process" are
distinguishable.
-/

set_option maxHeartbeats 1000000

/-- Result of running a piece of PIO code on one process: either a normal
outcome, or unrecoverable process termination via `piodie` / `MPI_Abort`. -/
inductive PRes (α : Type) where
  | ok (v : α)
  | fatal (msg : String)
deriving DecidableEq, Repr

/- ---------------------------------------------------------------------
   Constants from pio.h / netcdf.h used by pioc_support.c.
   --------------------------------------------------------------------- -/

def PIO_NOERR : Int := 0

def PIO_EINVAL : Int := -36

def PIO_ENOMEM : Int := -61

def PIO_EBADID : Int := -33

def PIO_EBADIOTYPE : Int := -255

/-- The generic I/O-transport error code that `check_mpi` produces
(`PIO_EIO` in pio.h; renamed here to avoid a clash with Lean naming). -/
def PIO_EIO_code : Int := -68

def NC_ENOTNC : Int := -51

def NC_EINVAL : Int := -36

def PIO_IOTYPE_PNETCDF : Int := 1

def PIO_IOTYPE_NETCDF : Int := 2

def PIO_IOTYPE_NETCDF4C : Int := 3

def PIO_IOTYPE_NETCDF4P : Int := 4

def PIO_INTERNAL_ERROR : Int := -51

def PIO_BCAST_ERROR : Int := -52

def PIO_RETURN_ERROR : Int := -53

def PIO_REARR_BOX : Int := 1

def PIO_REARR_SUBSET : Int := 2

/-- `NC_WRITE`, the bit tested by `file->mode & PIO_WRITE`. -/
def PIO_WRITE : Nat := 1

def NC_NETCDF4 : Nat := 4096

def NC_MPIIO : Nat := 8192

/-- `#define versno 2001` in pioc_support.c. -/
def versno : Int := 2001

/- ---------------------------------------------------------------------
   piodie / piomemerror (lines 253-272).
   --------------------------------------------------------------------- -/

/-- `piodie` prints the message and a stack trace, then aborts the process
(`MPI_Abort` / `abort`).  It never returns. -/
def piodieM (msg : String) : PRes Unit := PRes.fatal msg

/-- `piomemerror` (line 253): formats an out-of-memory message, emits the
buffer report diagnostic (external), and calls `piodie`. -/
def piomemerrorM (req : Nat) : PRes Unit :=
  piodieM ("out of memory requesting: " ++ toString req)

/- ---------------------------------------------------------------------
   Region lists: alloc_region / free_region_list (lines 382-406, 456-471).
   --------------------------------------------------------------------- -/

/-- One `io_region` node as seen by `free_region_list`: all that matters to
the free path is whether the two coordinate arrays are non-null.  The
forward `next` links are represented by the enclosing Lean list, which is
acyclic by construction. -/
structure RegionNode where
  startNull : Bool
  countNull : Bool
deriving DecidableEq, Repr

/-- A resource released by `free_region_list`, identified by the index of
the node in the list it came from. -/
inductive RegRes where
  | startArr (i : Nat)
  | countArr (i : Nat)
  | node (i : Nat)
deriving DecidableEq, Repr

/-- The loop body of `free_region_list` from node index `i` on: for each
node, release `start` if non-null, `count` if non-null, then the node
itself, and advance to `next`. -/
def freeRegionsFrom (i : Nat) : List RegionNode → List RegRes
  | [] => []
  | r :: rest =>
      (if r.startNull then [] else [RegRes.startArr i]) ++
      (if r.countNull then [] else [RegRes.countArr i]) ++
      [RegRes.node i] ++ freeRegionsFrom (i + 1) rest

/-- `free_region_list(top)` (line 456): walks the list from `top`,
releasing each node and its non-null coordinate arrays; returns the
sequence of released resources.  A null head is the empty list. -/
def free_region_list (top : List RegionNode) : List RegRes :=
  freeRegionsFrom 0 top

/- ---------------------------------------------------------------------
   PIOc_freedecomp (lines 473-526).
   --------------------------------------------------------------------- -/

/-- The fields of `io_desc_t` that `PIOc_freedecomp` touches.  Arrays are
modelled by whether they are non-null; the `rtype`/`stype` handle arrays
(of `nrecvs` resp. `num_stypes` entries) are lists of booleans, `true`
meaning the handle is not `MPI_DATATYPE_NULL`. -/
structure IoDesc where
  rfrom : Bool
  rtype : Option (List Bool)
  stype : Option (List Bool)
  scount : Bool
  rcount : Bool
  sindex : Bool
  rindex : Bool
  firstregion : Option (List RegionNode)
  rearranger : Int
deriving DecidableEq, Repr

/-- A resource released by `PIOc_freedecomp`. -/
inductive DecompRes where
  | rfromArr
  | rtypeHandle (i : Nat)
  | rtypeArr
  | stypeHandle (i : Nat)
  | stypeArr
  | scountArr
  | rcountArr
  | sindexArr
  | rindexArr
  | region (r : RegRes)
  | subsetComm
deriving DecidableEq, Repr

/-- The `MPI_Type_free` loop over a handle array from entry `i` on: frees
entry `i` exactly when it is not `MPI_DATATYPE_NULL`. -/
def freeHandlesFrom (tag : Nat → DecompRes) (i : Nat) : List Bool → List DecompRes
  | [] => []
  | b :: rest => (if b then [tag i] else []) ++ freeHandlesFrom tag (i + 1) rest

/-- The `MPI_Type_free` loop over a whole handle array. -/
def freeHandles (tag : Nat → DecompRes) (hs : List Bool) : List DecompRes :=
  freeHandlesFrom tag 0 hs

/-- The sequence of resources `PIOc_freedecomp` releases from a live
descriptor, in source order (lines 487-521). -/
def freedecompReleases (d : IoDesc) : List DecompRes :=
  (if d.rfrom then [DecompRes.rfromArr] else []) ++
  (match d.rtype with
   | some hs => freeHandles DecompRes.rtypeHandle hs ++ [DecompRes.rtypeArr]
   | none => []) ++
  (match d.stype with
   | some hs => freeHandles DecompRes.stypeHandle hs ++ [DecompRes.stypeArr]
   | none => []) ++
  (if d.scount then [DecompRes.scountArr] else []) ++
  (if d.rcount then [DecompRes.rcountArr] else []) ++
  (if d.sindex then [DecompRes.sindexArr] else []) ++
  (if d.rindex then [DecompRes.rindexArr] else []) ++
  (match d.firstregion with
   | some l => (free_region_list l).map DecompRes.region
   | none => []) ++
  (if d.rearranger = PIO_REARR_SUBSET then [DecompRes.subsetComm] else [])

/-- Association-list lookup, modelling `pio_get_iodesc_from_id`
(registry helper living outside this source file).
Modelled from the spec: lookup(id) returns the descriptor or not-found. -/
def regLookup (reg : List (Int × IoDesc)) (ioid : Int) : Option IoDesc :=
  match reg.find? fun p => p.1 = ioid with
  | some p => some p.2
  | none => none

/-- Modelled from the spec: `pio_delete_iodesc_from_list` removes the id
from the process-wide registry. -/
def regDelete (reg : List (Int × IoDesc)) (ioid : Int) : List (Int × IoDesc) :=
  reg.filter fun p => ¬ p.1 = ioid

/-- `PIOc_freedecomp(iosysid, ioid)` (line 473).  `sysReg` is the set of
valid iosystem ids (the process-wide iosystem registry, modelled from the
spec), `descReg` the decomposition registry.  Returns the status code, the
updated registry and the sequence of released resources. -/
def PIOc_freedecomp (sysReg : List Int) (descReg : List (Int × IoDesc))
    (iosysid ioid : Int) : Int × List (Int × IoDesc) × List DecompRes :=
  if ¬ sysReg.contains iosysid then
    (PIO_EBADID, descReg, [])
  else
    match regLookup descReg ioid with
    | none => (PIO_EBADID, descReg, [])
    | some d => (PIO_NOERR, regDelete descReg ioid, freedecompReleases d)

/- ---------------------------------------------------------------------
   Decomposition map files: PIOc_writemap (line 619) / PIOc_readmap
   (line 528).  The file is text, read and written with whitespace-
   separated fscanf/fprintf conversions; it is modelled as a stream of
   tokens, each either a literal word or an integer.
   --------------------------------------------------------------------- -/

/-- A whitespace-separated token of a decomposition map file. -/
inductive Tok where
  | word (s : String)
  | num (z : Int)
deriving DecidableEq, Repr

/-- The record lines written by `PIOc_writemap` for ranks `i, i+1, ...`:
each record is `rank maplen` followed by the `maplen` offsets of that
rank (gathered from rank `i` over the communicator). -/
def writemapRecords (i : Nat) : List (List Int) → List Tok
  | [] => []
  | m :: rest =>
      [Tok.num (Int.ofNat i), Tok.num (Int.ofNat m.length)] ++
      m.map Tok.num ++ writemapRecords (i + 1) rest

/-- The token stream `PIOc_writemap` writes (rank-0 branch, lines
637-673): the header `version <versno> npes <N> ndims <D>`, the `D`
global dimension sizes, one record per rank in rank order starting at 0,
and finally the stack-trace dump `print_trace(fp)` emits into the file,
whose tokens are the external parameter `trace`. -/
def writemapFile (ndims : Nat) (gdims : List Int) (maps : List (List Int))
    (trace : List Tok) : List Tok :=
  [Tok.word "version", Tok.num versno, Tok.word "npes",
   Tok.num (Int.ofNat maps.length), Tok.word "ndims", Tok.num (Int.ofNat ndims)] ++
  (List.range ndims).map (fun i => Tok.num (gdims.getD i 0)) ++
  writemapRecords 0 maps ++ trace

/-- An fscanf `%d` / `%ld` conversion: consumes one numeric token.
`none` is a matching failure (the C code would leave the target variable
unset, undefined behaviour downstream). -/
def scanInt : List Tok → Option (Int × List Tok)
  | Tok.num z :: rest => some (z, rest)
  | _ => none

/-- An fscanf literal match (e.g. the word `version` in the header). -/
def scanWord (s : String) : List Tok → Option (List Tok)
  | Tok.word t :: rest => if t = s then some rest else none
  | _ => none

/-- `n` successive `%d` conversions (the dimension line / an offset line). -/
def scanInts : Nat → List Tok → Option (List Int × List Tok)
  | 0, ts => some ([], ts)
  | n + 1, ts =>
      match scanInt ts with
      | none => none
      | some (z, ts1) =>
          match scanInts n ts1 with
          | none => none
          | some (zs, ts2) => some (z :: zs, ts2)

/-- Outcome of the reading (rank 0) side: a normal value, death by
`piodie` (which aborts the whole process group), or undefined behaviour
from an fscanf matching failure reading into an uninitialized variable. -/
inductive RRes (α : Type) where
  | ok (v : α)
  | died (msg : String)
  | stuck
deriving DecidableEq, Repr

/-- The record-reading loop of `PIOc_readmap` (lines 567-585) for ranks
`i, ..., rn-1`: reads `j maplen`, dies if `j` is not the expected rank,
reads the `maplen` offsets.  Returns the records in rank order. -/
def readmapRecordsLoop (i rn : Nat) (ts : List Tok) :
    RRes (List (List Int) × List Tok) :=
  match rn with
  | 0 => RRes.ok ([], ts)
  | rn1 + 1 =>
      match scanInt ts with
      | none => RRes.stuck
      | some (j, ts1) =>
          match scanInt ts1 with
          | none => RRes.stuck
          | some (maplen, ts2) =>
              if j ≠ Int.ofNat i then
                RRes.died "Incomprehensable error reading map file "
              else if maplen < 0 then RRes.stuck
              else
                match scanInts maplen.toNat ts2 with
                | none => RRes.stuck
                | some (m, ts3) =>
                    match readmapRecordsLoop (i + 1) rn1 ts3 with
                    | RRes.ok (ms, ts4) => RRes.ok (m :: ms, ts4)
                    | RRes.died msg => RRes.died msg
                    | RRes.stuck => RRes.stuck

/-- The rank-0 body of `PIOc_readmap` (lines 545-586): parse and validate
the header, parse the global dimension sizes, then parse one record per
declared rank.  `npes` is the size of the reading communicator.  Returns
the declared ndims, the dimension sizes, and the per-rank records. -/
def readmapRoot (npes : Nat) (file : List Tok) :
    RRes (Int × List Int × List (List Int)) :=
  match scanWord "version" file with
  | none => RRes.stuck
  | some ts0 =>
      match scanInt ts0 with
      | none => RRes.stuck
      | some (rversno, ts1) =>
          match scanWord "npes" ts1 with
          | none => RRes.stuck
          | some ts2 =>
              match scanInt ts2 with
              | none => RRes.stuck
              | some (rnpes, ts3) =>
                  match scanWord "ndims" ts3 with
                  | none => RRes.stuck
                  | some ts4 =>
                      match scanInt ts4 with
                      | none => RRes.stuck
                      | some (rndims, ts5) =>
                          if rversno ≠ versno then
                            RRes.died "Attempt to read incompatable map file version"
                          else if rnpes < 1 ∨ rnpes > Int.ofNat npes then
                            RRes.died "Incompatable pe count in map file "
                          else if rndims < 0 then RRes.stuck
                          else
                            match scanInts rndims.toNat ts5 with
                            | none => RRes.stuck
                            | some (tdims, ts6) =>
                                match readmapRecordsLoop 0 rnpes.toNat ts6 with
                                | RRes.ok (recs, _) =>
                                    RRes.ok (rndims, tdims, recs)
                                | RRes.died msg => RRes.died msg
                                | RRes.stuck => RRes.stuck

/-- What one process gets out of `PIOc_readmap`: the return status, the
values stored through `*ndims`, `*gdims` and `*fmaplen`, and the value
stored through `*map` — `none` when the pointer was never written. -/
structure ReadmapOut where
  ret : Int
  ndimsOut : Int
  gdimsOut : List Int
  fmaplenOut : Int
  mapOut : Option (List Int)
deriving DecidableEq, Repr

/-- The non-root branch of `PIOc_readmap` (lines 587-604), given the
broadcast-delivered declared rank count, ndims and dimension array, and
the point-to-point message from rank 0 (`none` when rank 0 sent none).
A rank below the declared count receives its map length and map and
stores the map; any other rank stores length 0 and leaves `*map`
unwritten.  Both return `PIO_NOERR`. -/
def readmapNonRoot (rank : Nat) (rnpesD ndimsD : Int) (tdimsD : List Int)
    (msg : Option (Int × List Int)) : RRes ReadmapOut :=
  if Int.ofNat rank < rnpesD then
    match msg with
    | some (len, m) =>
        RRes.ok ⟨PIO_NOERR, ndimsD, tdimsD, len, some m⟩
    | none => RRes.stuck
  else
    RRes.ok ⟨PIO_NOERR, ndimsD, tdimsD, 0, none⟩

/-- The group-level outcome of `PIOc_readmap` for process `rank` of
`npes`: rank 0 parses the file, broadcasts the header values and
dimension sizes, keeps record 0 for itself and sends record `i` to each
rank `0 < i < rnpes`; every other rank runs the non-root branch on the
delivered values.  If rank 0 dies, `MPI_Abort` takes the whole group
down, so every rank's outcome is `died`. -/
def readmapResult (npes : Nat) (file : List Tok) (rank : Nat) :
    RRes ReadmapOut :=
  match readmapRoot npes file with
  | RRes.died msg => RRes.died msg
  | RRes.stuck => RRes.stuck
  | RRes.ok (rndims, tdims, recs) =>
      if rank = 0 then
        RRes.ok ⟨PIO_NOERR, rndims, tdims,
          Int.ofNat (recs.getD 0 []).length, some (recs.getD 0 [])⟩
      else
        readmapNonRoot rank (Int.ofNat recs.length) rndims tdims
          (if rank < recs.length then
             some (Int.ofNat (recs.getD rank []).length, recs.getD rank [])
           else none)

/- ---------------------------------------------------------------------
   check_netcdf / check_mpi (lines 295-373), as used from
   PIOc_openfile_retry with a non-null file.
   --------------------------------------------------------------------- -/

/-- `check_netcdf(file, status, ...)` (line 325): under the compiled-in
iotypes, `PIO_INTERNAL_ERROR` with a non-zero status aborts the run
(`piodie` / `MPI_Abort`); `PIO_BCAST_ERROR` broadcasts the status from the
I/O root over `my_comm` — on a non-root process this overwrites `status`
with the delivered value `delivered` — and the (possibly overwritten)
status is returned; any other handler just returns the status.  An iotype
not compiled into the build reports `iotype_error` and still returns the
status. -/
def checkNetcdfP (iotype errorHandler status delivered : Int) : PRes Int :=
  if iotype = PIO_IOTYPE_NETCDF4P ∨ iotype = PIO_IOTYPE_NETCDF4C ∨
     iotype = PIO_IOTYPE_NETCDF ∨ iotype = PIO_IOTYPE_PNETCDF then
    if errorHandler = PIO_INTERNAL_ERROR ∧ status ≠ PIO_NOERR then
      PRes.fatal "check_netcdf abort"
    else if errorHandler = PIO_BCAST_ERROR then PRes.ok delivered
    else PRes.ok status
  else PRes.ok status

/-- `check_mpi(file, mpierr, ...)` (line 295) with `file` non-null and
`mpierr` non-zero: prints the MPI error string, routes `PIO_EIO` through
`check_netcdf` (whose return value is discarded, but whose abort is not),
and returns `PIO_EIO`. -/
def checkMpiFile (iotype errorHandler : Int) : PRes Int :=
  match checkNetcdfP iotype errorHandler PIO_EIO_code PIO_EIO_code with
  | PRes.fatal m => PRes.fatal m
  | PRes.ok _ => PRes.ok PIO_EIO_code

/- ---------------------------------------------------------------------
   PIOc_openfile_retry (lines 711-909).
   --------------------------------------------------------------------- -/

/-- The fields of `iosystem_desc_t` that `PIOc_openfile_retry` reads.
`comprootSelf` (resp. `iorootSelf`) say whether this process is the root
rank `comproot` (resp. `ioroot`) of the broadcasts over `my_comm`; a
broadcast leaves the root's buffer unchanged and overwrites everyone
else's with the delivered value. -/
structure IOSys where
  ioproc : Bool
  iomaster : Bool
  compmaster : Bool
  async_interface : Bool
  io_rank : Int
  comprootSelf : Bool
  iorootSelf : Bool
  errorHandler : Int
deriving DecidableEq, Repr

/-- The mutable fields of `file_desc_t` that `PIOc_openfile_retry`
manipulates. -/
structure FileSt where
  fh : Int
  iotype : Int
  mode : Nat
  doIo : Bool
deriving DecidableEq, Repr

/-- Per-process oracle for the external collaborators of one
`PIOc_openfile_retry` call: results of the allocator, of each transport
call this process makes, the values its broadcasts deliver (the root's
buffer, under group coherence), and the results of the backend open calls
it performs. -/
structure OpenEnv where
  mallocOk : Bool
  sendErr : Int
  bcastLenErr : Int
  bcastNameErr : Int
  bcastTypeErr : Int
  bcastModeErr2 : Int
  outcomeBcastErr : Int
  deliveredMpierr : Int
  natOpenRes : Int
  natOpenFh : Int
  bufferAttachRes : Int
  retryOpenRes : Int
  retryOpenFh : Int
  ierrBcastErr : Int
  deliveredIerr : Int
  modeBcastErr : Int
  deliveredMode : Nat
deriving DecidableEq, Repr

/-- A communication event of the asynchronous dispatch phase of
`PIOc_openfile_retry`, with the payload it carries. -/
inductive MEvent where
  | sendMsg
  | bcastLen (n : Nat)
  | bcastFilename (s : String)
  | bcastIotype (t : Int)
  | bcastMode (m : Nat)
  | bcastOutcome
deriving DecidableEq, Repr

/-- The compute-side sends of the async block (lines 779-794), run only
when this process is not an I/O process: the representative sends the
operation code to the I/O root over the union communicator; then the
filename length, filename bytes, backend type and open mode are broadcast
over the intercomm rooted at the compute representative, each step guarded
by `if (!mpierr)`.  Returns the events this process performed and its
local `mpierr`. -/
def asyncSendSteps (ios : IOSys) (env : OpenEnv) (fname : String)
    (fIotype : Int) (fMode : Nat) : List MEvent × Int :=
  let e0 : List MEvent := if ios.compmaster then [MEvent.sendMsg] else []
  let m0 : Int := if ios.compmaster then env.sendErr else 0
  let e1 := if m0 = 0 then e0 ++ [MEvent.bcastLen fname.length] else e0
  let m1 := if m0 = 0 then env.bcastLenErr else m0
  let e2 := if m1 = 0 then e1 ++ [MEvent.bcastFilename fname] else e1
  let m2 := if m1 = 0 then env.bcastNameErr else m1
  let e3 := if m2 = 0 then e2 ++ [MEvent.bcastIotype fIotype] else e2
  let m3 := if m2 = 0 then env.bcastTypeErr else m2
  let e4 := if m3 = 0 then e3 ++ [MEvent.bcastMode fMode] else e3
  let m4 := if m3 = 0 then env.bcastModeErr2 else m3
  (e4, m4)

/-- The asynchronous dispatch block of `PIOc_openfile_retry` (lines
774-801), run by every process when `async_interface` is set: the
compute-side sends (skipped on I/O processes), then the broadcast of
`mpierr` from `comproot` over `my_comm` (which overwrites the local
`mpierr` on every non-root process), then the two early-return checks
through `check_mpi`.  Returns the trace of events and `some r` when the
call returns early with outcome `r`, `none` when it proceeds. -/
def asyncPhase (ios : IOSys) (env : OpenEnv) (fname : String)
    (fIotype : Int) (fMode : Nat) : List MEvent × Option (PRes Int) :=
  let sends := if ¬ ios.ioproc then
                 asyncSendSteps ios env fname fIotype fMode
               else ([], 0)
  let evs := sends.1 ++ [MEvent.bcastOutcome]
  if env.outcomeBcastErr ≠ 0 then
    (evs, some (checkMpiFile fIotype ios.errorHandler))
  else
    let mpierr := if ios.comprootSelf then sends.2 else env.deliveredMpierr
    if mpierr ≠ 0 then (evs, some (checkMpiFile fIotype ios.errorHandler))
    else (evs, none)

/-- The backend-open switch of `PIOc_openfile_retry` (lines 806-849), run
on I/O processes.  Serial netCDF types open only on I/O rank 0 (the other
I/O ranks leave `ierr` at `PIO_NOERR`); `NETCDF4C` sets the `NC_NETCDF4`
mode bit and falls through to the serial case; `NETCDF4P` sets `NC_MPIIO`
and opens in parallel on every I/O process; `PNETCDF` opens in parallel
and, on success of an open for writing, attaches the staging buffer.
Returns the local `ierr` and the updated file. -/
def ioSwitch (ios : IOSys) (env : OpenEnv) (file : FileSt) : Int × FileSt :=
  if file.iotype = PIO_IOTYPE_NETCDF4P then
    (env.natOpenRes,
     { file with mode := file.mode.lor NC_MPIIO, fh := env.natOpenFh })
  else if file.iotype = PIO_IOTYPE_NETCDF4C then
    let f := { file with mode := file.mode.lor NC_NETCDF4 }
    if ios.io_rank = 0 then (env.natOpenRes, { f with fh := env.natOpenFh })
    else (PIO_NOERR, f)
  else if file.iotype = PIO_IOTYPE_NETCDF then
    if ios.io_rank = 0 then
      (env.natOpenRes, { file with fh := env.natOpenFh })
    else (PIO_NOERR, file)
  else if file.iotype = PIO_IOTYPE_PNETCDF then
    let f := { file with fh := env.natOpenFh }
    if env.natOpenRes = PIO_NOERR ∧ f.mode.land PIO_WRITE ≠ 0 then
      (env.bufferAttachRes, f)
    else (env.natOpenRes, f)
  else
    (PIO_EBADIOTYPE, file)

/-- The retry block of `PIOc_openfile_retry` (lines 854-875): if the
caller requested a retry and the local outcome of the open is
`NC_ENOTNC` or `NC_EINVAL` and the file is not already serial netCDF,
reset `ierr` to no-error on this task, downgrade `file->iotype` to
`PIO_IOTYPE_NETCDF` on this task, and reopen serially on I/O rank 0
only. -/
def ioRetry (ios : IOSys) (env : OpenEnv) (retry : Bool) (file : FileSt)
    (ierr : Int) : Int × FileSt :=
  if retry ∧ (ierr = NC_ENOTNC ∨ ierr = NC_EINVAL) ∧
     file.iotype ≠ PIO_IOTYPE_NETCDF then
    let f := { file with iotype := PIO_IOTYPE_NETCDF }
    if ios.io_rank = 0 then (env.retryOpenRes, { f with fh := env.retryOpenFh })
    else (PIO_NOERR, f)
  else (ierr, file)

/-- The whole I/O-process open phase (lines 804-876): on an I/O process,
the backend switch followed by the retry block; a non-I/O process leaves
`ierr` at `PIO_NOERR` and the file untouched. -/
def ioOpenPhase (ios : IOSys) (env : OpenEnv) (retry : Bool)
    (file : FileSt) : Int × FileSt :=
  if ios.ioproc then
    let sw := ioSwitch ios env file
    ioRetry ios env retry sw.2 sw.1
  else (PIO_NOERR, file)

/-- What one process gets out of `PIOc_openfile_retry`: the return
status, the value stored through `*ncidp` (`none` when never written),
the final state of the file record (`none` when it was never allocated),
whether `pio_add_to_file_list` was called, and the updated value of the
process-wide `pio_next_ncid` counter. -/
structure OpenOut where
  ret : Int
  ncid : Option Int
  file : Option FileSt
  registered : Bool
  nextNcid : Int
deriving DecidableEq, Repr

/-- The tail of `PIOc_openfile_retry` (lines 878-908): broadcast `ierr`
from the I/O root over `my_comm` (a transport failure there goes through
`check_mpi`), return a non-zero outcome through `check_netcdf`, and on a
zero outcome re-broadcast the open mode, mint `file->pio_ncid` from
`pio_next_ncid++`, store it through `*ncidp` and link the file into the
open-file list. -/
def finalizePhase (ios : IOSys) (env : OpenEnv) (file : FileSt)
    (ierr : Int) (c : Int) : PRes OpenOut :=
  if env.ierrBcastErr ≠ 0 then
    match checkMpiFile file.iotype ios.errorHandler with
    | PRes.fatal m => PRes.fatal m
    | PRes.ok e => PRes.ok ⟨e, none, some file, false, c⟩
  else
    let ierr1 := if ios.iorootSelf then ierr else env.deliveredIerr
    if ierr1 ≠ 0 then
      match checkNetcdfP file.iotype ios.errorHandler ierr1 ierr1 with
      | PRes.fatal m => PRes.fatal m
      | PRes.ok e => PRes.ok ⟨e, none, some file, false, c⟩
    else
      if env.modeBcastErr ≠ 0 then
        match checkMpiFile file.iotype ios.errorHandler with
        | PRes.fatal m => PRes.fatal m
        | PRes.ok e => PRes.ok ⟨e, none, some file, false, c⟩
      else
        let f := { file with
          mode := if ios.iorootSelf then file.mode else env.deliveredMode }
        PRes.ok ⟨PIO_NOERR, some c, some f, true, c + 1⟩

/-- `PIOc_openfile_retry` (line 711) on one process.  `iosLookup` is the
result of `pio_get_iosystem_from_id` (the iosystem registry lives outside
this file), the three `Null` flags describe the caller's pointers,
`iotypeReq`/`mode` the requested backend type and open mode, `c` the
current value of the process-wide `pio_next_ncid` counter. -/
def openfileStep (iosLookup : Option IOSys)
    (ncidpNull iotypepNull filenameNull : Bool) (iotypeReq : Int)
    (fname : String) (mode : Nat) (retry : Bool) (env : OpenEnv)
    (c : Int) : PRes OpenOut :=
  if ncidpNull ∨ iotypepNull ∨ filenameNull then
    PRes.ok ⟨PIO_EINVAL, none, none, false, c⟩
  else if iotypeReq < PIO_IOTYPE_PNETCDF ∨ iotypeReq > PIO_IOTYPE_NETCDF4P then
    PRes.ok ⟨PIO_ENOMEM, none, none, false, c⟩
  else
    match iosLookup with
    | none => PRes.ok ⟨PIO_EBADID, none, none, false, c⟩
    | some ios =>
        if ¬ env.mallocOk then PRes.ok ⟨PIO_ENOMEM, none, none, false, c⟩
        else
          let file : FileSt :=
            { fh := -1, iotype := iotypeReq, mode := mode,
              doIo := iotypeReq = PIO_IOTYPE_NETCDF4P ∨
                      iotypeReq = PIO_IOTYPE_PNETCDF ∨ ios.io_rank = 0 }
          let early : Option (PRes Int) :=
            if ios.async_interface then
              (asyncPhase ios env fname file.iotype file.mode).2
            else none
          match early with
          | some (PRes.fatal m) => PRes.fatal m
          | some (PRes.ok e) => PRes.ok ⟨e, none, some file, false, c⟩
          | none =>
              let op := ioOpenPhase ios env retry file
              finalizePhase ios env op.2 op.1 c

/- ---------------------------------------------------------------------
   The process-wide open-file registry (pio_next_ncid / the open-file
   list maintained by pio_add_to_file_list / pio_delete_from_file_list,
   which live outside this source file).
   --------------------------------------------------------------------- -/

/-- The observable state of the process-wide open-file bookkeeping: the
`pio_next_ncid` counter and the public ids of the currently open files. -/
structure FileRegistry where
  nextNcid : Int
  openIds : List Int
deriving DecidableEq, Repr

/-- One step of the open-file bookkeeping: a successful
`PIOc_openfile_retry` call run at the current counter links the minted id
into the list and advances the counter exactly as the call reports;
a close (modelled from the spec: close removes the handle from the
process-wide open-file registry, leaving the counter alone) erases an id. -/
inductive FileRegStep : FileRegistry → FileRegistry → Prop where
  | openOk :
      ∀ (iosLookup : Option IOSys) (n1 n2 n3 : Bool) (t : Int)
        (fname : String) (mode : Nat) (retry : Bool) (env : OpenEnv)
        (st : FileRegistry) (r : OpenOut) (id : Int),
        openfileStep iosLookup n1 n2 n3 t fname mode retry env st.nextNcid =
          PRes.ok r →
        r.ret = PIO_NOERR → r.ncid = some id →
        FileRegStep st ⟨r.nextNcid, id :: st.openIds⟩
  | close : ∀ (st : FileRegistry) (id : Int),
      FileRegStep st ⟨st.nextNcid, st.openIds.erase id⟩

/-- The registry invariant: ids of concurrently open files are pairwise
distinct, and all of them are below the counter. -/
def RegInv (st : FileRegistry) : Prop :=
  st.openIds.Nodup ∧ ∀ id ∈ st.openIds, id < st.nextNcid

/- ---------------------------------------------------------------------
   Concrete fixtures used by the theorems below.
   --------------------------------------------------------------------- -/

/-- A concrete live decomposition descriptor used to witness C5. -/
def dExample : IoDesc :=
  { rfrom := true, rtype := some [true, false], stype := none,
    scount := true, rcount := false, sindex := true, rindex := true,
    firstregion := some [⟨false, false⟩], rearranger := PIO_REARR_SUBSET }

/-- A benign oracle: allocation succeeds, every transport and backend
call succeeds. -/
def envStd : OpenEnv :=
  { mallocOk := true, sendErr := 0, bcastLenErr := 0, bcastNameErr := 0,
    bcastTypeErr := 0, bcastModeErr2 := 0, outcomeBcastErr := 0,
    deliveredMpierr := 0, natOpenRes := 0, natOpenFh := 11,
    bufferAttachRes := 0, retryOpenRes := 0, retryOpenFh := 12,
    ierrBcastErr := 0, deliveredIerr := 0, modeBcastErr := 0,
    deliveredMode := 0 }

/-- A serial (non-asynchronous) I/O-root process. -/
def iosSerial : IOSys :=
  { ioproc := true, iomaster := true, compmaster := true,
    async_interface := false, io_rank := 0, comprootSelf := true,
    iorootSelf := true, errorHandler := PIO_RETURN_ERROR }

/-- An oracle whose allocator fails. -/
def envNoMem : OpenEnv := { envStd with mallocOk := false }

/-- A non-representative compute process in asynchronous mode. -/
def iosCompNonRep : IOSys :=
  { ioproc := false, iomaster := false, compmaster := false,
    async_interface := true, io_rank := 1, comprootSelf := false,
    iorootSelf := false, errorHandler := PIO_RETURN_ERROR }

/-- The representative compute process (compute master, root of the
outcome broadcast) in asynchronous mode. -/
def iosCompRep : IOSys :=
  { ioproc := false, iomaster := false, compmaster := true,
    async_interface := true, io_rank := 1, comprootSelf := true,
    iorootSelf := false, errorHandler := PIO_RETURN_ERROR }

/-- An oracle where this process's length broadcast fails but the
representative's outcome (delivered by the outcome broadcast) is clean. -/
def envC3 : OpenEnv := { envStd with bcastLenErr := 7 }

/-- The asynchronous I/O-root process (I/O rank 0, root of the outcome
broadcasts). -/
def iosIoRoot : IOSys :=
  { ioproc := true, iomaster := true, compmaster := false,
    async_interface := true, io_rank := 0, comprootSelf := false,
    iorootSelf := true, errorHandler := PIO_RETURN_ERROR }

/-- An oracle whose native open fails with `NC_ENOTNC` and whose serial
retry open succeeds. -/
def envRetry : OpenEnv := { envStd with natOpenRes := NC_ENOTNC }

/-- The compute-side oracle coherent with `iosIoRoot` running `envRetry`:
the delivered outcome is 0 (the serial reopen succeeded on the root) and
the delivered mode carries the `NC_NETCDF4` bit the root set. -/
def envCompC1 : OpenEnv := { envStd with deliveredMode := 4096 }

/-- The root's file record when the retry triggers (requested NETCDF4C,
`NC_NETCDF4` mode bit already set by the switch). -/
def fileC1 : FileSt :=
  { fh := -1, iotype := PIO_IOTYPE_NETCDF4C, mode := 0, doIo := true }

/-- The compute process's file record in the same group. -/
def fileC1comp : FileSt :=
  { fh := -1, iotype := PIO_IOTYPE_NETCDF4C, mode := 0, doIo := false }

/- =====================================================================
   Theorems.
   ===================================================================== -/

/- ------------------------- C9: free_region_list -------------------- -/

lemma node_mem_freeRegionsFrom (i k : Nat) (l : List RegionNode) :
    RegRes.node i ∈ freeRegionsFrom k l ↔ k ≤ i ∧ i < k + l.length := by
  induction l generalizing k with
  | nil => simp [freeRegionsFrom]
  | cons r rest ih =>
      cases hs : r.startNull <;> cases hc : r.countNull <;>
        simp [freeRegionsFrom, hs, hc, ih, List.length_cons] <;> omega

lemma mem_ite_nil_singleton {α : Type} (x y : α) (c : Bool) :
    x ∈ (if c = true then ([] : List α) else [y]) ↔ c = false ∧ x = y := by
  cases c <;> simp

lemma startArr_mem_freeRegionsFrom (i k : Nat) (l : List RegionNode) :
    RegRes.startArr i ∈ freeRegionsFrom k l ↔
      ∃ j, j < l.length ∧ i = k + j ∧
        (l.getD j ⟨true, true⟩).startNull = false := by
  induction l generalizing k with
  | nil => simp [freeRegionsFrom]
  | cons r rest ih =>
      simp only [freeRegionsFrom, List.mem_append, mem_ite_nil_singleton,
        List.mem_singleton, reduceCtorEq, and_false, false_or, or_false,
        RegRes.startArr.injEq, ih, List.length_cons]
      constructor
      · rintro (⟨hnull, rfl⟩ | ⟨j, hj, rfl, hnull⟩)
        · exact ⟨0, by omega, by omega, by simpa using hnull⟩
        · exact ⟨j + 1, by omega, by omega, by simpa using hnull⟩
      · rintro ⟨j, hj, rfl, hnull⟩
        cases j with
        | zero => exact Or.inl ⟨by simpa using hnull, by omega⟩
        | succ m =>
            exact Or.inr ⟨m, by omega, by omega, by simpa using hnull⟩

lemma countArr_mem_freeRegionsFrom (i k : Nat) (l : List RegionNode) :
    RegRes.countArr i ∈ freeRegionsFrom k l ↔
      ∃ j, j < l.length ∧ i = k + j ∧
        (l.getD j ⟨true, true⟩).countNull = false := by
  induction l generalizing k with
  | nil => simp [freeRegionsFrom]
  | cons r rest ih =>
      simp only [freeRegionsFrom, List.mem_append, mem_ite_nil_singleton,
        List.mem_singleton, reduceCtorEq, and_false, false_or, or_false,
        RegRes.countArr.injEq, ih, List.length_cons]
      constructor
      · rintro (⟨hnull, rfl⟩ | ⟨j, hj, rfl, hnull⟩)
        · exact ⟨0, by omega, by omega, by simpa using hnull⟩
        · exact ⟨j + 1, by omega, by omega, by simpa using hnull⟩
      · rintro ⟨j, hj, rfl, hnull⟩
        cases j with
        | zero => exact Or.inl ⟨by simpa using hnull, by omega⟩
        | succ m =>
            exact Or.inr ⟨m, by omega, by omega, by simpa using hnull⟩

/-- C9: `free_region_list` releases every node of the region list together
with its two coordinate arrays, is a no-op when called on a null head
(the empty list), and on a list whose start or count arrays are
individually null it releases only the non-null parts.  The function is a
structurally recursive total function, so it terminates on every acyclic
list by construction. -/
theorem C9_free_region_list_spec :
    free_region_list [] = [] ∧
    ∀ l : List RegionNode, ∀ i : Nat,
      (RegRes.node i ∈ free_region_list l ↔ i < l.length) ∧
      (RegRes.startArr i ∈ free_region_list l ↔
        i < l.length ∧ (l.getD i ⟨true, true⟩).startNull = false) ∧
      (RegRes.countArr i ∈ free_region_list l ↔
        i < l.length ∧ (l.getD i ⟨true, true⟩).countNull = false) := by
  refine ⟨rfl, fun l i => ⟨?_, ?_, ?_⟩⟩
  · rw [free_region_list, node_mem_freeRegionsFrom]
    omega
  · rw [free_region_list, startArr_mem_freeRegionsFrom]
    constructor
    · rintro ⟨j, hj, rfl, hnull⟩
      refine ⟨by omega, ?_⟩
      simpa using hnull
    · rintro ⟨hi, hnull⟩
      exact ⟨i, hi, by omega, hnull⟩
  · rw [free_region_list, countArr_mem_freeRegionsFrom]
    constructor
    · rintro ⟨j, hj, rfl, hnull⟩
      refine ⟨by omega, ?_⟩
      simpa using hnull
    · rintro ⟨hi, hnull⟩
      exact ⟨i, hi, by omega, hnull⟩

/- ------------------------- C5: PIOc_freedecomp --------------------- -/

lemma mem_ite_singleton_nil {α : Type} (x y : α) (c : Bool) :
    x ∈ (if c = true then [y] else ([] : List α)) ↔ c = true ∧ x = y := by
  cases c <;> simp

lemma mem_ite_singleton_prop {α : Type} (x y : α) (c : Prop) [Decidable c] :
    x ∈ (if c then [y] else ([] : List α)) ↔ c ∧ x = y := by
  by_cases h : c <;> simp [h]

lemma mem_freeHandlesFrom (x : DecompRes) (tag : Nat → DecompRes) (k : Nat)
    (hs : List Bool) :
    x ∈ freeHandlesFrom tag k hs ↔
      ∃ j, j < hs.length ∧ hs.getD j false = true ∧ x = tag (k + j) := by
  induction hs generalizing k with
  | nil => simp [freeHandlesFrom]
  | cons b rest ih =>
      simp only [freeHandlesFrom, List.mem_append, mem_ite_singleton_nil,
        ih, List.length_cons]
      constructor
      · rintro (⟨hb, rfl⟩ | ⟨j, hj, hg, rfl⟩)
        · exact ⟨0, by omega, by simpa using hb, by simp⟩
        · exact ⟨j + 1, by omega, by simpa using hg, by simp [Nat.add_assoc,
            Nat.add_comm 1 j]⟩
      · rintro ⟨j, hj, hg, rfl⟩
        cases j with
        | zero => exact Or.inl ⟨by simpa using hg, by simp⟩
        | succ m =>
            exact Or.inr ⟨m, by omega, by simpa using hg, by simp [Nat.add_assoc,
              Nat.add_comm 1 m]⟩

lemma rtypeHandle_mem_releases (d : IoDesc) (i : Nat) :
    DecompRes.rtypeHandle i ∈ freedecompReleases d ↔
      ∃ hs, d.rtype = some hs ∧ i < hs.length ∧ hs.getD i false = true := by
  rcases hrt : d.rtype with _ | hs1 <;> rcases hst : d.stype with _ | hs2 <;>
    rcases hfr : d.firstregion with _ | l <;>
    simp [freedecompReleases, hrt, hst, hfr, freeHandles, mem_freeHandlesFrom,
      mem_ite_singleton_prop, List.mem_map]

lemma stypeHandle_mem_releases (d : IoDesc) (i : Nat) :
    DecompRes.stypeHandle i ∈ freedecompReleases d ↔
      ∃ hs, d.stype = some hs ∧ i < hs.length ∧ hs.getD i false = true := by
  rcases hrt : d.rtype with _ | hs1 <;> rcases hst : d.stype with _ | hs2 <;>
    rcases hfr : d.firstregion with _ | l <;>
    simp [freedecompReleases, hrt, hst, hfr, freeHandles, mem_freeHandlesFrom,
      mem_ite_singleton_prop, List.mem_map]

lemma sindex_mem_releases (d : IoDesc) :
    DecompRes.sindexArr ∈ freedecompReleases d ↔ d.sindex = true := by
  rcases hrt : d.rtype with _ | hs1 <;> rcases hst : d.stype with _ | hs2 <;>
    rcases hfr : d.firstregion with _ | l <;>
    simp [freedecompReleases, hrt, hst, hfr, freeHandles, mem_freeHandlesFrom,
      mem_ite_singleton_prop, List.mem_map]

lemma rindex_mem_releases (d : IoDesc) :
    DecompRes.rindexArr ∈ freedecompReleases d ↔ d.rindex = true := by
  rcases hrt : d.rtype with _ | hs1 <;> rcases hst : d.stype with _ | hs2 <;>
    rcases hfr : d.firstregion with _ | l <;>
    simp [freedecompReleases, hrt, hst, hfr, freeHandles, mem_freeHandlesFrom,
      mem_ite_singleton_prop, List.mem_map]

lemma scount_mem_releases (d : IoDesc) :
    DecompRes.scountArr ∈ freedecompReleases d ↔ d.scount = true := by
  rcases hrt : d.rtype with _ | hs1 <;> rcases hst : d.stype with _ | hs2 <;>
    rcases hfr : d.firstregion with _ | l <;>
    simp [freedecompReleases, hrt, hst, hfr, freeHandles, mem_freeHandlesFrom,
      mem_ite_singleton_prop, List.mem_map]

lemma rcount_mem_releases (d : IoDesc) :
    DecompRes.rcountArr ∈ freedecompReleases d ↔ d.rcount = true := by
  rcases hrt : d.rtype with _ | hs1 <;> rcases hst : d.stype with _ | hs2 <;>
    rcases hfr : d.firstregion with _ | l <;>
    simp [freedecompReleases, hrt, hst, hfr, freeHandles, mem_freeHandlesFrom,
      mem_ite_singleton_prop, List.mem_map]

lemma region_mem_releases (d : IoDesc) (r : RegRes) :
    DecompRes.region r ∈ freedecompReleases d ↔
      ∃ l, d.firstregion = some l ∧ r ∈ free_region_list l := by
  rcases hrt : d.rtype with _ | hs1 <;> rcases hst : d.stype with _ | hs2 <;>
    rcases hfr : d.firstregion with _ | l <;>
    simp [freedecompReleases, hrt, hst, hfr, freeHandles, mem_freeHandlesFrom,
      mem_ite_singleton_prop, List.mem_map]

lemma subsetComm_mem_releases (d : IoDesc) :
    DecompRes.subsetComm ∈ freedecompReleases d ↔
      d.rearranger = PIO_REARR_SUBSET := by
  rcases hrt : d.rtype with _ | hs1 <;> rcases hst : d.stype with _ | hs2 <;>
    rcases hfr : d.firstregion with _ | l <;>
    simp [freedecompReleases, hrt, hst, hfr, freeHandles, mem_freeHandlesFrom,
      mem_ite_singleton_prop, List.mem_map]

lemma regLookup_delete (reg : List (Int × IoDesc)) (ioid : Int) :
    regLookup (regDelete reg ioid) ioid = none := by
  cases h : regLookup (regDelete reg ioid) ioid with
  | none => rfl
  | some d =>
      exfalso
      unfold regLookup at h
      cases hf : (regDelete reg ioid).find? (fun p => p.1 = ioid) with
      | none => rw [hf] at h; exact Option.noConfusion h
      | some p =>
          have hmem := List.mem_of_find?_eq_some hf
          have hpred := List.find?_some hf
          have h1 : p.1 = ioid := by simpa using hpred
          have h2 := (List.mem_filter.mp hmem).2
          simp [h1] at h2

/-- C5: `PIOc_freedecomp` is exactly-once per decomposition id.  A call
with an unknown iosystem id or an id absent from the registry (including
any second call on an already-destroyed id) returns `PIO_EBADID` leaving
the registry untouched and freeing nothing.  A first call on a live id
releases exactly: its index arrays and count arrays when non-null, every
message-layout handle that is not `MPI_DATATYPE_NULL`, its region list,
and the dedicated sub-communicator exactly when the rearranger is the
subset strategy; it then removes the id, so a second call returns
`PIO_EBADID`. -/
theorem C5_freedecomp_exactly_once :
    ∀ (sysReg : List Int) (descReg : List (Int × IoDesc)) (iosysid ioid : Int),
      (sysReg.contains iosysid = false →
        PIOc_freedecomp sysReg descReg iosysid ioid = (PIO_EBADID, descReg, [])) ∧
      (regLookup descReg ioid = none →
        PIOc_freedecomp sysReg descReg iosysid ioid = (PIO_EBADID, descReg, [])) ∧
      (∀ d : IoDesc, sysReg.contains iosysid = true →
        regLookup descReg ioid = some d →
        PIOc_freedecomp sysReg descReg iosysid ioid =
          (PIO_NOERR, regDelete descReg ioid, freedecompReleases d) ∧
        (DecompRes.sindexArr ∈ freedecompReleases d ↔ d.sindex = true) ∧
        (DecompRes.rindexArr ∈ freedecompReleases d ↔ d.rindex = true) ∧
        (DecompRes.scountArr ∈ freedecompReleases d ↔ d.scount = true) ∧
        (DecompRes.rcountArr ∈ freedecompReleases d ↔ d.rcount = true) ∧
        (∀ i : Nat, DecompRes.rtypeHandle i ∈ freedecompReleases d ↔
          ∃ hs, d.rtype = some hs ∧ i < hs.length ∧ hs.getD i false = true) ∧
        (∀ i : Nat, DecompRes.stypeHandle i ∈ freedecompReleases d ↔
          ∃ hs, d.stype = some hs ∧ i < hs.length ∧ hs.getD i false = true) ∧
        (∀ r : RegRes, DecompRes.region r ∈ freedecompReleases d ↔
          ∃ l, d.firstregion = some l ∧ r ∈ free_region_list l) ∧
        (DecompRes.subsetComm ∈ freedecompReleases d ↔
          d.rearranger = PIO_REARR_SUBSET) ∧
        regLookup (regDelete descReg ioid) ioid = none ∧
        PIOc_freedecomp sysReg (regDelete descReg ioid) iosysid ioid =
          (PIO_EBADID, regDelete descReg ioid, [])) := by
  intro sysReg descReg iosysid ioid
  refine ⟨fun h => ?_, fun h => ?_, fun d hsys hlook => ?_⟩
  · have h2 : iosysid ∉ sysReg := by simpa using h
    simp [PIOc_freedecomp, h2]
  · by_cases hsys : sysReg.contains iosysid = true
    · have h2 : iosysid ∈ sysReg := by simpa using hsys
      simp [PIOc_freedecomp, h2, h]
    · have h2 : iosysid ∉ sysReg := by simpa using hsys
      simp [PIOc_freedecomp, h2]
  · have h2 : iosysid ∈ sysReg := by simpa using hsys
    refine ⟨by simp [PIOc_freedecomp, h2, hlook],
      sindex_mem_releases d, rindex_mem_releases d, scount_mem_releases d,
      rcount_mem_releases d, fun i => rtypeHandle_mem_releases d i,
      fun i => stypeHandle_mem_releases d i, fun r => region_mem_releases d r,
      subsetComm_mem_releases d, regLookup_delete descReg ioid,
      by simp [PIOc_freedecomp, h2, regLookup_delete descReg ioid]⟩

/-- Witness for C5 at a concrete registry: a live id is destroyed with
`PIO_NOERR` and the second destroy fails with `PIO_EBADID`. -/
theorem C5_freedecomp_witness :
    ([1] : List Int).contains 1 = true ∧
    regLookup [(7, dExample)] 7 = some dExample ∧
    PIOc_freedecomp [1] [(7, dExample)] 1 7 =
      (PIO_NOERR, regDelete [(7, dExample)] 7, freedecompReleases dExample) ∧
    PIOc_freedecomp [1] (regDelete [(7, dExample)] 7) 1 7 =
      (PIO_EBADID, regDelete [(7, dExample)] 7, []) := by
  have h1 : ([1] : List Int).contains 1 = true := by decide
  have h2 : regLookup [(7, dExample)] 7 = some dExample := by
    simp [regLookup, dExample]
  have h := (C5_freedecomp_exactly_once [1] [(7, dExample)] 1 7).2.2 dExample h1 h2
  exact ⟨h1, h2, h.1, h.2.2.2.2.2.2.2.2.2.2⟩

/- ------------------------- C7: readmap header checks --------------- -/

/-- C7: `PIOc_readmap` validates the header before parsing any map data.
A version tag different from `versno` makes the reader die fatally
(`piodie`, which aborts the process group), and so does a declared
process count outside `[1, npes]`; in both cases the result is the same
for every possible remainder of the file, i.e. the failure happens
before any dimension or offset data is parsed, and it is never a normal
return.  The group-level outcome propagates the fatality to every
rank. -/
theorem C7_readmap_header_validation :
    ∀ (npes : Nat) (v rn nd : Int) (rest : List Tok),
      (v ≠ versno →
        readmapRoot npes
          ([Tok.word "version", Tok.num v, Tok.word "npes", Tok.num rn,
            Tok.word "ndims", Tok.num nd] ++ rest) =
          RRes.died "Attempt to read incompatable map file version" ∧
        ∀ rank : Nat,
          readmapResult npes
            ([Tok.word "version", Tok.num v, Tok.word "npes", Tok.num rn,
              Tok.word "ndims", Tok.num nd] ++ rest) rank =
            RRes.died "Attempt to read incompatable map file version") ∧
      (v = versno → rn < 1 ∨ rn > Int.ofNat npes →
        readmapRoot npes
          ([Tok.word "version", Tok.num v, Tok.word "npes", Tok.num rn,
            Tok.word "ndims", Tok.num nd] ++ rest) =
          RRes.died "Incompatable pe count in map file " ∧
        ∀ rank : Nat,
          readmapResult npes
            ([Tok.word "version", Tok.num v, Tok.word "npes", Tok.num rn,
              Tok.word "ndims", Tok.num nd] ++ rest) rank =
            RRes.died "Incompatable pe count in map file ") := by
  intro npes v rn nd rest
  constructor
  · intro hv
    have hroot : readmapRoot npes
        ([Tok.word "version", Tok.num v, Tok.word "npes", Tok.num rn,
          Tok.word "ndims", Tok.num nd] ++ rest) =
        RRes.died "Attempt to read incompatable map file version" := by
      simp [readmapRoot, scanWord, scanInt, hv]
    refine ⟨hroot, fun rank => ?_⟩
    simp only [List.cons_append, List.nil_append] at hroot
    simp [readmapResult, hroot]
  · intro hv hrn
    have hroot : readmapRoot npes
        ([Tok.word "version", Tok.num v, Tok.word "npes", Tok.num rn,
          Tok.word "ndims", Tok.num nd] ++ rest) =
        RRes.died "Incompatable pe count in map file " := by
      simp [readmapRoot, scanWord, scanInt, hv, hrn]
      intro h1 h2
      exfalso
      rcases hrn with h | h
      · omega
      · simp only [Int.ofNat_eq_coe] at h
        omega
    refine ⟨hroot, fun rank => ?_⟩
    simp only [List.cons_append, List.nil_append] at hroot
    simp [readmapResult, hroot]

/-- Witness for C7: version 1999 is rejected, and a pe count of 0 or 3
is rejected on a 2-process communicator. -/
theorem C7_readmap_header_witness :
    ((1999 : Int) ≠ versno ∧
      readmapRoot 2 [Tok.word "version", Tok.num 1999, Tok.word "npes",
        Tok.num 2, Tok.word "ndims", Tok.num 1, Tok.num 7] =
        RRes.died "Attempt to read incompatable map file version") ∧
    ((2001 : Int) = versno ∧ ((3 : Int) < 1 ∨ (3 : Int) > Int.ofNat 2) ∧
      readmapRoot 2 [Tok.word "version", Tok.num 2001, Tok.word "npes",
        Tok.num 3, Tok.word "ndims", Tok.num 1, Tok.num 7] =
        RRes.died "Incompatable pe count in map file ") := by
  have h1 := (C7_readmap_header_validation 2 1999 2 1 [Tok.num 7]).1
    (by decide)
  have h2 := (C7_readmap_header_validation 2 2001 3 1 [Tok.num 7]).2
    (by decide) (by decide)
  exact ⟨⟨by decide, h1.1⟩, ⟨by decide, by decide, h2.1⟩⟩

/- ------------------------- C10: readmap idle ranks ----------------- -/

/-- C10: on a non-root process whose rank is at least the process count
declared in the map file header, `PIOc_readmap` still participates in the
header/dimension broadcasts (storing the delivered ndims and dimension
sizes), returns success, sets the output map length to 0 and leaves the
caller's map pointer unwritten; the map pointer is written exactly on
ranks below the declared count. -/
theorem C10_readmap_idle_ranks :
    ∀ (rank : Nat) (rnpesD ndimsD : Int) (tdimsD : List Int)
      (msg : Option (Int × List Int)),
      (Int.ofNat rank ≥ rnpesD →
        readmapNonRoot rank rnpesD ndimsD tdimsD msg =
          RRes.ok ⟨PIO_NOERR, ndimsD, tdimsD, 0, none⟩) ∧
      (Int.ofNat rank < rnpesD → ∀ len : Int, ∀ m : List Int,
        readmapNonRoot rank rnpesD ndimsD tdimsD (some (len, m)) =
          RRes.ok ⟨PIO_NOERR, ndimsD, tdimsD, len, some m⟩) := by
  intro rank rnpesD ndimsD tdimsD msg
  constructor
  · intro h
    simp only [readmapNonRoot]
    rw [if_neg (by omega)]
  · intro h len m
    simp only [readmapNonRoot]
    rw [if_pos (by omega)]

/-- Witness for C10: rank 5 of a file declaring 2 ranks returns success
with map length 0 and no map written; rank 1 receives its map. -/
theorem C10_readmap_idle_witness :
    Int.ofNat 5 ≥ (2 : Int) ∧
    readmapNonRoot 5 2 1 [9] (some (3, [1, 2, 3])) =
      RRes.ok ⟨PIO_NOERR, 1, [9], 0, none⟩ ∧
    Int.ofNat 1 < (2 : Int) ∧
    readmapNonRoot 1 2 1 [9] (some (3, [1, 2, 3])) =
      RRes.ok ⟨PIO_NOERR, 1, [9], 3, some [1, 2, 3]⟩ := by
  refine ⟨by decide, ?_, by decide, ?_⟩
  · exact (C10_readmap_idle_ranks 5 2 1 [9] (some (3, [1, 2, 3]))).1 (by decide)
  · exact (C10_readmap_idle_ranks 1 2 1 [9] (some (3, [1, 2, 3]))).2 (by decide)
      3 [1, 2, 3]

/- ------------------------- C6: map file round trip ----------------- -/

lemma scanInts_map_num (zs : List Int) (rest : List Tok) :
    scanInts zs.length (zs.map Tok.num ++ rest) = some (zs, rest) := by
  induction zs with
  | nil => rfl
  | cons z zs ih => simp [scanInts, scanInt, ih]

lemma range_map_getElem (l : List Int) :
    (List.range l.length).map (fun i => Tok.num (l[i]?.getD 0)) =
      l.map Tok.num := by
  apply List.ext_getElem
  · simp
  · intro i hh1 hh2
    simp only [List.getElem_map, List.getElem_range]
    rw [List.getElem?_eq_getElem (by simpa using hh2)]
    rfl

lemma readmapRecordsLoop_write (maps : List (List Int)) (i : Nat)
    (rest : List Tok) :
    readmapRecordsLoop i maps.length (writemapRecords i maps ++ rest) =
      RRes.ok (maps, rest) := by
  induction maps generalizing i with
  | nil => rfl
  | cons m ms ih =>
      simp only [writemapRecords, List.length_cons, List.cons_append,
        List.append_assoc, List.nil_append, readmapRecordsLoop, scanInt]
      rw [if_neg (by simp)]
      have hnn : ¬ Int.ofNat m.length < 0 := by
        rw [Int.ofNat_eq_coe]
        omega
      rw [if_neg hnn]
      have ht : (Int.ofNat m.length).toNat = m.length := rfl
      rw [ht, scanInts_map_num]
      simp [ih]

lemma readmapRoot_write (gdims : List Int) (maps : List (List Int))
    (trace : List Tok) (h1 : 1 ≤ maps.length) :
    readmapRoot maps.length (writemapFile gdims.length gdims maps trace) =
      RRes.ok (Int.ofNat gdims.length, gdims, maps) := by
  have h2 : ¬ Int.ofNat maps.length < 1 := by
    rw [Int.ofNat_eq_coe]
    omega
  have ht : ∀ n : Nat, (Int.ofNat n).toNat = n := fun n => rfl
  have h0 : maps ≠ [] := by
    cases maps
    · simp at h1
    · simp
  simp [writemapFile, readmapRoot, scanWord, scanInt, h2, ht]
  rw [if_neg h0, if_neg (by omega), range_map_getElem, scanInts_map_num]
  simp [readmapRecordsLoop_write]

/-- C6: map file round trip.  For any process count N = maps.length with
N at least 1, any global dimension list and arbitrary per-process offset
lists, writing the decomposition map with `PIOc_writemap` and reading the
produced file back with `PIOc_readmap` on an N-process communicator gives
every process the written global dimension sizes, and gives every process
exactly the offset list it wrote (with the matching length), including
both the N = 1 and the N > 1 case and for any trailing stack-trace dump
in the file. -/
theorem C6_map_roundtrip :
    ∀ (gdims : List Int) (maps : List (List Int)) (trace : List Tok)
      (rank : Nat),
      1 ≤ maps.length → rank < maps.length →
      readmapResult maps.length (writemapFile gdims.length gdims maps trace)
          rank =
        RRes.ok ⟨PIO_NOERR, Int.ofNat gdims.length, gdims,
          Int.ofNat (maps.getD rank []).length, some (maps.getD rank [])⟩ := by
  intro gdims maps trace rank h1 hrank
  have hroot := readmapRoot_write gdims maps trace h1
  simp only [readmapResult, hroot]
  by_cases h0 : rank = 0
  · subst h0
    simp [List.getD]
  · rw [if_neg h0, if_pos hrank]
    simp only [readmapNonRoot]
    rw [if_pos (by rw [Int.ofNat_eq_coe, Int.ofNat_eq_coe]; omega)]

/-- Witness for C6 at a concrete 2-process map (and a 1-process map):
the written file, stack-trace suffix included, reads back to the same
dimensions and per-rank offset lists. -/
theorem C6_map_roundtrip_witness :
    (1 ≤ ([[10, 11, 12], [20, 21]] : List (List Int)).length ∧
      (1 : Nat) < ([[10, 11, 12], [20, 21]] : List (List Int)).length ∧
      readmapResult 2
        (writemapFile 2 [4, 5] [[10, 11, 12], [20, 21]]
          [Tok.word "Obtained", Tok.num 3]) 1 =
        RRes.ok ⟨PIO_NOERR, 2, [4, 5], 2, some [20, 21]⟩) ∧
    (1 ≤ ([[7]] : List (List Int)).length ∧
      (0 : Nat) < ([[7]] : List (List Int)).length ∧
      readmapResult 1 (writemapFile 1 [9] [[7]] []) 0 =
        RRes.ok ⟨PIO_NOERR, 1, [9], 1, some [7]⟩) := by
  constructor
  · exact ⟨by decide, by decide,
      C6_map_roundtrip [4, 5] [[10, 11, 12], [20, 21]]
        [Tok.word "Obtained", Tok.num 3] 1 (by decide) (by decide)⟩
  · exact ⟨by decide, by decide,
      C6_map_roundtrip [9] [[7]] [] 0 (by decide) (by decide)⟩

/- ------------------------- C4: argument validation ----------------- -/

/-- Counterexample to C4: with all three pointers valid and the backend
type 0 (below the supported range), `PIOc_openfile_retry` returns
`PIO_ENOMEM` — the out-of-memory code (line 724) — which is not the
invalid-argument code the claim requires. -/
theorem C4_validation_counterexample :
    openfileStep none false false false 0 "f.nc" 0 false envStd 16 =
      PRes.ok ⟨PIO_ENOMEM, none, none, false, 16⟩ ∧
    PIO_ENOMEM ≠ PIO_EINVAL := by
  constructor
  · rfl
  · decide

/-- C4 (amended): before any communication or allocation — the outcome
is a fixed constant, independent of the iosystem lookup and of every
transport/allocator oracle — a null handle-out, type pointer or filename
fails with the invalid-argument code `PIO_EINVAL`, and a backend type
outside `[PIO_IOTYPE_PNETCDF, PIO_IOTYPE_NETCDF4P]` fails with the
out-of-memory code `PIO_ENOMEM` (not an invalid-argument code). -/
theorem C4_validation_amended :
    ∀ (iosLookup : Option IOSys) (n1 n2 n3 : Bool) (t : Int)
      (fname : String) (mode : Nat) (retry : Bool) (env : OpenEnv) (c : Int),
      ((n1 = true ∨ n2 = true ∨ n3 = true) →
        openfileStep iosLookup n1 n2 n3 t fname mode retry env c =
          PRes.ok ⟨PIO_EINVAL, none, none, false, c⟩) ∧
      (n1 = false → n2 = false → n3 = false →
        (t < PIO_IOTYPE_PNETCDF ∨ t > PIO_IOTYPE_NETCDF4P) →
        openfileStep iosLookup n1 n2 n3 t fname mode retry env c =
          PRes.ok ⟨PIO_ENOMEM, none, none, false, c⟩) := by
  intro iosLookup n1 n2 n3 t fname mode retry env c
  constructor
  · intro h
    simp [openfileStep, h]
  · intro h1 h2 h3 hrange
    simp [openfileStep, h1, h2, h3, hrange]

/-- Witness for C4 (amended): a null handle pointer gives `PIO_EINVAL`;
backend type 5 gives `PIO_ENOMEM`. -/
theorem C4_validation_witness :
    ((true = true ∨ false = true ∨ false = true) ∧
      openfileStep none true false false 2 "f.nc" 0 false envStd 16 =
        PRes.ok ⟨PIO_EINVAL, none, none, false, 16⟩) ∧
    (((5 : Int) < PIO_IOTYPE_PNETCDF ∨ (5 : Int) > PIO_IOTYPE_NETCDF4P) ∧
      openfileStep none false false false 5 "f.nc" 0 false envStd 16 =
        PRes.ok ⟨PIO_ENOMEM, none, none, false, 16⟩) := by
  constructor
  · exact ⟨Or.inl rfl,
      (C4_validation_amended none true false false 2 "f.nc" 0 false envStd
        16).1 (Or.inl rfl)⟩
  · exact ⟨Or.inr (by decide),
      (C4_validation_amended none false false false 5 "f.nc" 0 false envStd
        16).2 rfl rfl rfl (Or.inr (by decide))⟩

/- ------------------------- C8: out-of-memory policy ---------------- -/

/-- Counterexample to C8: the failed allocation of the file record in
`PIOc_openfile_retry` (line 737) is returned to the caller as the error
code `PIO_ENOMEM` — a normal return, not a process termination — so not
every out-of-memory condition in the core terminates the process. -/
theorem C8_oom_counterexample :
    openfileStep (some iosSerial) false false false PIO_IOTYPE_NETCDF
      "f.nc" 0 false envNoMem 16 =
      PRes.ok ⟨PIO_ENOMEM, none, none, false, 16⟩ := by
  rfl

/-- C8 (amended): out-of-memory conditions routed through `piomemerror`
terminate the process unrecoverably (after the diagnostic dump), as does
every `piodie` call; but the file-record allocation failure in
`PIOc_openfile_retry` is instead returned to the caller as `PIO_ENOMEM`
with no identifier minted, no registration and no termination. -/
theorem C8_oom_amended :
    (∀ req : Nat, piomemerrorM req =
      PRes.fatal ("out of memory requesting: " ++ toString req)) ∧
    (∀ msg : String, piodieM msg = PRes.fatal msg) ∧
    (∀ (ios : IOSys) (t : Int) (fname : String) (mode : Nat) (retry : Bool)
       (env : OpenEnv) (c : Int),
      env.mallocOk = false →
      ¬ (t < PIO_IOTYPE_PNETCDF ∨ t > PIO_IOTYPE_NETCDF4P) →
      openfileStep (some ios) false false false t fname mode retry env c =
        PRes.ok ⟨PIO_ENOMEM, none, none, false, c⟩) := by
  refine ⟨fun req => rfl, fun msg => rfl, ?_⟩
  intro ios t fname mode retry env c hmalloc hrange
  simp [openfileStep, hrange, hmalloc]

/-- Witness for C8 (amended): `piomemerror` terminates; a concrete
allocation failure in the open path returns `PIO_ENOMEM` normally. -/
theorem C8_oom_witness :
    piomemerrorM 64 = PRes.fatal ("out of memory requesting: " ++
      toString (64 : Nat)) ∧
    envNoMem.mallocOk = false ∧
    ¬ ((2 : Int) < PIO_IOTYPE_PNETCDF ∨ (2 : Int) > PIO_IOTYPE_NETCDF4P) ∧
    openfileStep (some iosSerial) false false false 2 "f.nc" 0 false
      envNoMem 16 = PRes.ok ⟨PIO_ENOMEM, none, none, false, 16⟩ := by
  refine ⟨C8_oom_amended.1 64, rfl, by decide, ?_⟩
  exact C8_oom_amended.2.2 iosSerial 2 "f.nc" 0 false envNoMem 16 rfl
    (by decide)

/- ------------------------- C3: async dispatch protocol ------------- -/

/-- Counterexample to C3: on a non-representative compute process whose
filename-length broadcast fails locally (transport code 7), the outcome
broadcast overwrites the local transport error with the representative's
clean outcome, so the call is NOT returned immediately: the dispatch
phase proceeds (outcome `none`) and the whole open completes normally
with a minted id, refuting "a transport failure in any of these steps ...
is classified through the transport-error handler and returned
immediately, aborting the call". -/
theorem C3_async_dispatch_counterexample :
    envC3.bcastLenErr ≠ 0 ∧
    asyncPhase iosCompNonRep envC3 "f.nc" PIO_IOTYPE_NETCDF 0 =
      ([MEvent.bcastLen 4, MEvent.bcastOutcome], none) ∧
    openfileStep (some iosCompNonRep) false false false PIO_IOTYPE_NETCDF
      "f.nc" 0 false envC3 16 =
      PRes.ok ⟨PIO_NOERR, some 16, some ⟨-1, 2, 0, false⟩, true, 17⟩ := by
  refine ⟨by decide, rfl, rfl⟩

/-- C3 (amended): in asynchronous mode on a non-I/O process, only the
compute representative sends the operation-code message, and with no
local transport failure the filename length, filename, backend type and
open mode are broadcast in exactly that order before the outcome
broadcast.  A failure of the outcome broadcast itself, or any failure
observed by the representative (the root of the outcome broadcast), is
classified through `check_mpi` (the generic transport code under a
non-internal handler) and returned immediately.  On a non-representative
process, a local broadcast failure suppresses that process's remaining
argument broadcasts, but the call is aborted if and only if the outcome
delivered from the representative is non-zero. -/
theorem C3_async_dispatch_amended :
    ∀ (ios : IOSys) (env : OpenEnv) (fname : String) (fIotype : Int)
      (fMode : Nat),
      ios.async_interface = true → ios.ioproc = false →
      (MEvent.sendMsg ∈ (asyncPhase ios env fname fIotype fMode).1 ↔
        ios.compmaster = true) ∧
      ((ios.compmaster = true → env.sendErr = 0) → env.bcastLenErr = 0 →
        env.bcastNameErr = 0 → env.bcastTypeErr = 0 →
        (asyncPhase ios env fname fIotype fMode).1 =
          (if ios.compmaster then [MEvent.sendMsg] else []) ++
          [MEvent.bcastLen fname.length, MEvent.bcastFilename fname,
           MEvent.bcastIotype fIotype, MEvent.bcastMode fMode,
           MEvent.bcastOutcome]) ∧
      (env.outcomeBcastErr ≠ 0 →
        (asyncPhase ios env fname fIotype fMode).2 =
          some (checkMpiFile fIotype ios.errorHandler)) ∧
      (ios.comprootSelf = true → env.outcomeBcastErr = 0 →
        (asyncPhase ios env fname fIotype fMode).2 =
          (if (asyncSendSteps ios env fname fIotype fMode).2 = 0 then none
           else some (checkMpiFile fIotype ios.errorHandler))) ∧
      (ios.comprootSelf = false → env.outcomeBcastErr = 0 →
        (asyncPhase ios env fname fIotype fMode).2 =
          (if env.deliveredMpierr = 0 then none
           else some (checkMpiFile fIotype ios.errorHandler))) ∧
      ((ios.compmaster = true → env.sendErr = 0) → env.bcastLenErr ≠ 0 →
        (asyncPhase ios env fname fIotype fMode).1 =
          (if ios.compmaster then [MEvent.sendMsg] else []) ++
          [MEvent.bcastLen fname.length, MEvent.bcastOutcome]) ∧
      (∀ h : Int, h ≠ PIO_INTERNAL_ERROR →
        checkMpiFile fIotype h = PRes.ok PIO_EIO_code) := by
  intro ios env fname fIotype fMode hasync hio
  refine ⟨?_, ?_, ?_, ?_, ?_, ?_, ?_⟩
  · cases hcm : ios.compmaster <;>
      simp [asyncPhase, asyncSendSteps, hio, hcm] <;> split_ifs <;> simp
  · intro hsend hlen hname htype
    cases hcm : ios.compmaster
    · simp only [asyncPhase, asyncSendSteps, hio, hcm, hlen, hname, htype]
      simp [hlen, hname, htype]
      split_ifs <;> rfl
    · simp [asyncPhase, asyncSendSteps, hio, hcm, hlen, hname, htype,
        hsend hcm]
      split_ifs <;> rfl
  · intro h
    simp [asyncPhase, hio, h]
  · intro hroot houtcome
    simp [asyncPhase, hio, hroot, houtcome]
    split <;> simp
  · intro hroot houtcome
    simp [asyncPhase, hio, hroot, houtcome]
    split <;> simp
  · intro hsend hlen
    cases hcm : ios.compmaster
    · simp [asyncPhase, asyncSendSteps, hio, hcm, hlen]
      split_ifs <;> rfl
    · simp [asyncPhase, asyncSendSteps, hio, hcm, hlen, hsend hcm]
      split_ifs <;> rfl
  · intro h hne
    simp [checkMpiFile, checkNetcdfP, hne]

/-- Witness for C3 (amended) on concrete processes: the representative's
clean run produces the full ordered trace; the representative's failed
send aborts with the transport classification; the classification is the
generic transport code. -/
theorem C3_async_dispatch_witness :
    ((asyncPhase iosCompRep envStd "ab" 2 0).1 =
      [MEvent.sendMsg, MEvent.bcastLen 2, MEvent.bcastFilename "ab",
       MEvent.bcastIotype 2, MEvent.bcastMode 0, MEvent.bcastOutcome]) ∧
    ((asyncPhase iosCompRep { envStd with sendErr := 3 } "ab" 2 0).2 =
      some (checkMpiFile 2 PIO_RETURN_ERROR)) ∧
    checkMpiFile 2 PIO_RETURN_ERROR = PRes.ok PIO_EIO_code := by
  have T := C3_async_dispatch_amended iosCompRep envStd "ab" 2 0 rfl rfl
  have T2 := C3_async_dispatch_amended iosCompRep
    { envStd with sendErr := 3 } "ab" 2 0 rfl rfl
  refine ⟨?_, ?_, ?_⟩
  · have h2 := T.2.1 (fun _ => rfl) rfl rfl rfl
    simpa [iosCompRep] using h2
  · have h4 := T2.2.2.2.1 rfl rfl
    rw [h4, if_neg (by decide)]
    rfl
  · exact T.2.2.2.2.2.2 PIO_RETURN_ERROR (by decide)

/- ------------------------- C2: public id discipline ---------------- -/

lemma checkNetcdfP_ok_self (t h s e : Int)
    (he : checkNetcdfP t h s s = PRes.ok e) : e = s := by
  unfold checkNetcdfP at he
  split_ifs at he <;> simp_all

lemma checkMpiFile_ok (t h e : Int)
    (he : checkMpiFile t h = PRes.ok e) : e = PIO_EIO_code := by
  unfold checkMpiFile at he
  cases hcn : checkNetcdfP t h PIO_EIO_code PIO_EIO_code <;>
    rw [hcn] at he <;> simp_all

lemma asyncPhase_early_ok (ios : IOSys) (env : OpenEnv) (fname : String)
    (t : Int) (m : Nat) (e : Int)
    (he : (asyncPhase ios env fname t m).2 = some (PRes.ok e)) :
    e = PIO_EIO_code := by
  by_cases h1 : env.outcomeBcastErr ≠ 0
  · simp [asyncPhase, h1] at he
    exact checkMpiFile_ok _ _ _ he
  · simp [asyncPhase, h1] at he
    split_ifs at he <;>
      first
        | exact Option.noConfusion he
        | exact checkMpiFile_ok _ _ _ (Option.some.inj he)

lemma finalizePhase_mint (ios : IOSys) (env : OpenEnv) (file : FileSt)
    (ierr : Int) (c : Int) (r : OpenOut)
    (hr : finalizePhase ios env file ierr c = PRes.ok r) :
    (r.ret = PIO_NOERR → r.ncid = some c ∧ r.registered = true ∧
      r.nextNcid = c + 1) ∧
    (r.ret ≠ PIO_NOERR → r.ncid = none ∧ r.registered = false ∧
      r.nextNcid = c) := by
  unfold finalizePhase at hr
  by_cases h1 : env.ierrBcastErr ≠ 0
  · rw [if_pos h1] at hr
    cases hcm : checkMpiFile file.iotype ios.errorHandler with
    | fatal msg =>
        rw [hcm] at hr
        exact PRes.noConfusion hr
    | ok v =>
        rw [hcm] at hr
        have he := checkMpiFile_ok _ _ _ hcm
        subst he
        injection hr with h2
        subst h2
        exact ⟨fun h0 => absurd (show PIO_EIO_code = PIO_NOERR from h0)
          (by decide), fun _ => ⟨rfl, rfl, rfl⟩⟩
  · rw [if_neg h1] at hr
    by_cases h2 : (if ios.iorootSelf then ierr else env.deliveredIerr) ≠ 0
    · rw [if_pos h2] at hr
      cases hcn : checkNetcdfP file.iotype ios.errorHandler
          (if ios.iorootSelf then ierr else env.deliveredIerr)
          (if ios.iorootSelf then ierr else env.deliveredIerr) with
      | fatal msg =>
          rw [hcn] at hr
          exact PRes.noConfusion hr
      | ok v =>
          rw [hcn] at hr
          have he := checkNetcdfP_ok_self _ _ _ _ hcn
          injection hr with h3
          subst h3
          refine ⟨fun h0 => ?_, fun _ => ⟨rfl, rfl, rfl⟩⟩
          have h0x : v = (0 : Int) := h0
          exact absurd (he.symm.trans h0x) h2
    · rw [if_neg h2] at hr
      by_cases h3 : env.modeBcastErr ≠ 0
      · rw [if_pos h3] at hr
        cases hcm : checkMpiFile file.iotype ios.errorHandler with
        | fatal msg =>
            rw [hcm] at hr
            exact PRes.noConfusion hr
        | ok v =>
            rw [hcm] at hr
            have he := checkMpiFile_ok _ _ _ hcm
            subst he
            injection hr with h4
            subst h4
            exact ⟨fun h0 => absurd (show PIO_EIO_code = PIO_NOERR from h0)
              (by decide), fun _ => ⟨rfl, rfl, rfl⟩⟩
      · rw [if_neg h3] at hr
        injection hr with h4
        subst h4
        exact ⟨fun _ => ⟨rfl, rfl, rfl⟩, fun h0 => absurd rfl h0⟩

lemma openfileStep_mint (iosLookup : Option IOSys) (n1 n2 n3 : Bool)
    (t : Int) (fname : String) (mode : Nat) (retry : Bool) (env : OpenEnv)
    (c : Int) (r : OpenOut)
    (hr : openfileStep iosLookup n1 n2 n3 t fname mode retry env c =
      PRes.ok r) :
    (r.ret = PIO_NOERR → r.ncid = some c ∧ r.registered = true ∧
      r.nextNcid = c + 1) ∧
    (r.ret ≠ PIO_NOERR → r.ncid = none ∧ r.registered = false ∧
      r.nextNcid = c) := by
  unfold openfileStep at hr
  split at hr
  · injection hr with h
    subst h
    exact ⟨fun h0 => absurd (show PIO_EINVAL = PIO_NOERR from h0) (by decide),
      fun _ => ⟨rfl, rfl, rfl⟩⟩
  · split at hr
    · injection hr with h
      subst h
      exact ⟨fun h0 => absurd (show PIO_ENOMEM = PIO_NOERR from h0)
        (by decide), fun _ => ⟨rfl, rfl, rfl⟩⟩
    · split at hr
      · injection hr with h
        subst h
        exact ⟨fun h0 => absurd (show PIO_EBADID = PIO_NOERR from h0)
          (by decide), fun _ => ⟨rfl, rfl, rfl⟩⟩
      · split at hr
        · injection hr with h
          subst h
          exact ⟨fun h0 => absurd (show PIO_ENOMEM = PIO_NOERR from h0)
            (by decide), fun _ => ⟨rfl, rfl, rfl⟩⟩
        · split at hr
          · simp only [] at hr
            split at hr
            · exact PRes.noConfusion hr
            · next e heq =>
                injection hr with h
                subst h
                have he := asyncPhase_early_ok _ _ _ _ _ _ heq
                subst he
                exact ⟨fun h0 =>
                  absurd (show PIO_EIO_code = PIO_NOERR from h0) (by decide),
                  fun _ => ⟨rfl, rfl, rfl⟩⟩
            · exact finalizePhase_mint _ _ _ _ _ _ hr
          · exact finalizePhase_mint _ _ _ _ _ _ hr

lemma fileRegStep_preserves (st st2 : FileRegistry) (hinv : RegInv st)
    (h : FileRegStep st st2) : RegInv st2 := by
  cases h with
  | openOk iosLookup n1 n2 n3 t fname mode retry env st r id hopen hret hid =>
      obtain ⟨ha, _⟩ := openfileStep_mint _ _ _ _ _ _ _ _ _ _ _ hopen
      obtain ⟨hncid, _, hnext⟩ := ha hret
      have hideq : id = st.nextNcid := by
        rw [hid] at hncid
        exact Option.some.inj hncid
      subst hideq
      constructor
      · refine List.nodup_cons.mpr ⟨?_, hinv.1⟩
        intro hmem
        exact absurd (hinv.2 _ hmem) (lt_irrefl _)
      · intro id2 hmem
        simp only [hnext]
        rcases List.mem_cons.mp hmem with rfl | hmem2
        · omega
        · have := hinv.2 _ hmem2
          omega
  | close st id =>
      exact ⟨hinv.1.erase id, fun id2 hmem =>
        hinv.2 _ (List.mem_of_mem_erase hmem)⟩

/-- C2: a public file identifier is minted only on a zero broadcast
outcome.  Whenever `PIOc_openfile_retry` returns normally: a zero return
means the id stored through `*ncidp` is exactly the current value of the
process-wide `pio_next_ncid` counter, the file was linked into the
open-file registry, and the counter advanced by one; a non-zero return
means no id was written, nothing was registered and the counter is
untouched.  Consequently, along any sequence of successful opens
interleaved with closes starting from a consistent registry, the ids of
concurrently open files stay pairwise distinct (and below the counter). -/
theorem C2_public_id_spec :
    (∀ (iosLookup : Option IOSys) (n1 n2 n3 : Bool) (t : Int)
       (fname : String) (mode : Nat) (retry : Bool) (env : OpenEnv)
       (c : Int) (r : OpenOut),
      openfileStep iosLookup n1 n2 n3 t fname mode retry env c =
        PRes.ok r →
      (r.ret = PIO_NOERR → r.ncid = some c ∧ r.registered = true ∧
        r.nextNcid = c + 1) ∧
      (r.ret ≠ PIO_NOERR → r.ncid = none ∧ r.registered = false ∧
        r.nextNcid = c)) ∧
    (∀ st st2 : FileRegistry, RegInv st →
      Relation.ReflTransGen FileRegStep st st2 →
      st2.openIds.Nodup ∧ ∀ id ∈ st2.openIds, id < st2.nextNcid) := by
  constructor
  · intro iosLookup n1 n2 n3 t fname mode retry env c r hr
    exact openfileStep_mint iosLookup n1 n2 n3 t fname mode retry env c r hr
  · intro st st2 hinv hchain
    induction hchain with
    | refl => exact hinv
    | tail hsteps hstep ih => exact fileRegStep_preserves _ _ ih hstep

/-- Witness for C2: a concrete successful open at counter 16 mints id 16,
registers the file and advances the counter; and along the concrete
chain open, close, open the final registry `[17]` is duplicate-free. -/
theorem C2_public_id_witness :
    (openfileStep (some iosSerial) false false false 2 "ab" 0 false envStd
      16 = PRes.ok ⟨PIO_NOERR, some 16, some ⟨11, 2, 0, true⟩, true, 17⟩) ∧
    (([17] : List Int).Nodup ∧
      ∀ id ∈ ([17] : List Int), id < (⟨18, [17]⟩ : FileRegistry).nextNcid) := by
  refine ⟨rfl, ?_⟩
  have hinv : RegInv ⟨16, []⟩ := ⟨by simp, by simp⟩
  have step1 : FileRegStep ⟨16, []⟩ ⟨17, [16]⟩ :=
    FileRegStep.openOk (some iosSerial) false false false 2 "ab" 0 false
      envStd ⟨16, []⟩ ⟨PIO_NOERR, some 16, some ⟨11, 2, 0, true⟩, true, 17⟩
      16 rfl rfl rfl
  have step2 : FileRegStep ⟨17, [16]⟩ ⟨17, []⟩ :=
    FileRegStep.close ⟨17, [16]⟩ 16
  have step3 : FileRegStep ⟨17, []⟩ ⟨18, [17]⟩ :=
    FileRegStep.openOk (some iosSerial) false false false 2 "ab" 0 false
      envStd ⟨17, []⟩ ⟨PIO_NOERR, some 17, some ⟨11, 2, 0, true⟩, true, 18⟩
      17 rfl rfl rfl
  exact C2_public_id_spec.2 ⟨16, []⟩ ⟨18, [17]⟩ hinv
    (Relation.ReflTransGen.tail (Relation.ReflTransGen.tail
      (Relation.ReflTransGen.tail Relation.ReflTransGen.refl step1) step2)
      step3)

/- ------------------------- C1: open-retry downgrade ---------------- -/

lemma ioSwitch_iotype (ios : IOSys) (env : OpenEnv) (file : FileSt) :
    (ioSwitch ios env file).2.iotype = file.iotype := by
  unfold ioSwitch
  split_ifs <;> first
    | rfl
    | (simp only []
       split <;> rfl)

lemma ioOpenPhase_retry_false (ios : IOSys) (env : OpenEnv) (file : FileSt) :
    (ioOpenPhase ios env false file).2.iotype = file.iotype ∧
    (ioOpenPhase ios env false file).1 =
      (if ios.ioproc = true then (ioSwitch ios env file).1 else PIO_NOERR) := by
  by_cases hio : ios.ioproc = true <;>
    simp [ioOpenPhase, ioRetry, hio, ioSwitch_iotype]

lemma ioOpenPhase_downgrade (ios : IOSys) (env : OpenEnv) (file : FileSt)
    (hio : ios.ioproc = true)
    (herr : (ioSwitch ios env file).1 = NC_ENOTNC ∨
      (ioSwitch ios env file).1 = NC_EINVAL)
    (hne : (ioSwitch ios env file).2.iotype ≠ PIO_IOTYPE_NETCDF) :
    (ioOpenPhase ios env true file).2.iotype = PIO_IOTYPE_NETCDF ∧
    (ioOpenPhase ios env true file).1 =
      (if ios.io_rank = 0 then env.retryOpenRes else PIO_NOERR) := by
  unfold ioOpenPhase
  rw [if_pos hio]
  unfold ioRetry
  rw [if_pos ⟨rfl, herr, hne⟩]
  by_cases hrank : ios.io_rank = 0 <;> simp [hrank]

lemma checkNetcdfP_nonfatal (t h s : Int) (hh : h ≠ PIO_INTERNAL_ERROR) :
    checkNetcdfP t h s s = PRes.ok s := by
  unfold checkNetcdfP
  split_ifs with h1 h2 h3 <;> simp_all

lemma finalizePhase_clean (ios : IOSys) (env : OpenEnv) (file : FileSt)
    (ierr : Int) (c : Int) (h1 : env.ierrBcastErr = 0)
    (h2 : env.modeBcastErr = 0) (hh : ios.errorHandler ≠ PIO_INTERNAL_ERROR) :
    finalizePhase ios env file ierr c =
      (if (if ios.iorootSelf = true then ierr else env.deliveredIerr) = 0 then
        PRes.ok ⟨PIO_NOERR, some c,
          some { file with mode :=
            if ios.iorootSelf = true then file.mode else env.deliveredMode },
          true, c + 1⟩
      else
        PRes.ok ⟨if ios.iorootSelf = true then ierr else env.deliveredIerr,
          none, some file, false, c⟩) := by
  unfold finalizePhase
  rw [if_neg (by simp [h1])]
  by_cases hv : (if ios.iorootSelf = true then ierr else env.deliveredIerr) = 0
  · rw [if_neg (by simp [hv]), if_neg (by simp [h2]), if_pos hv]
  · rw [if_pos hv, checkNetcdfP_nonfatal _ _ _ hh, if_neg hv]

/-- Counterexample to C1: a coherent two-process async group opening a
`NETCDF4C` file with `retry = true`.  The I/O root's native open fails
with `NC_ENOTNC`; the root downgrades its backend-type field to serial
netCDF, reopens successfully and broadcasts outcome 0; but the compute
process's file record keeps the requested `NETCDF4C` type — the
backend-type field is NOT downgraded "on every process". -/
theorem C1_open_retry_counterexample :
    envRetry.natOpenRes = NC_ENOTNC ∧
    PIO_IOTYPE_NETCDF4C ≠ PIO_IOTYPE_NETCDF ∧
    openfileStep (some iosIoRoot) false false false PIO_IOTYPE_NETCDF4C
      "f.nc" 0 true envRetry 16 =
      PRes.ok ⟨PIO_NOERR, some 16, some ⟨12, PIO_IOTYPE_NETCDF, 4096, true⟩,
        true, 17⟩ ∧
    openfileStep (some iosCompNonRep) false false false PIO_IOTYPE_NETCDF4C
      "f.nc" 0 true envCompC1 16 =
      PRes.ok ⟨PIO_NOERR, some 16,
        some ⟨-1, PIO_IOTYPE_NETCDF4C, 4096, false⟩, true, 17⟩ := by
  exact ⟨rfl, by decide, rfl, rfl⟩

/-- C1 (amended): with `retry = false` the backend-type field is left
untouched and the local outcome is the native open's outcome.  With
`retry = true`, every I/O process whose LOCAL open outcome is
`NC_ENOTNC`/`NC_EINVAL` while its file is not already serial netCDF
resets its outcome to no-error, downgrades its own backend-type field to
serial netCDF, and only I/O rank 0 re-attempts the open (other I/O
processes keep outcome no-error; non-I/O processes are untouched — see
the counterexample).  The downgrade is one-shot: the retried outcome is
reported as-is.  Under clean final broadcasts and a non-internal error
handler, the call's final status on any process is the delivered outcome
value, and a process coherent with such a retrying root (delivered
outcome = the root's post-retry outcome = the serial open's result)
succeeds — mints and registers — if and only if the serial open
succeeded, and otherwise reports exactly the serial open's status. -/
theorem C1_open_retry_amended :
    (∀ (ios : IOSys) (env : OpenEnv) (file : FileSt),
      (ioOpenPhase ios env false file).2.iotype = file.iotype ∧
      (ioOpenPhase ios env false file).1 =
        (if ios.ioproc = true then (ioSwitch ios env file).1
         else PIO_NOERR)) ∧
    (∀ (ios : IOSys) (env : OpenEnv) (file : FileSt),
      ios.ioproc = true →
      ((ioSwitch ios env file).1 = NC_ENOTNC ∨
        (ioSwitch ios env file).1 = NC_EINVAL) →
      (ioSwitch ios env file).2.iotype ≠ PIO_IOTYPE_NETCDF →
      (ioOpenPhase ios env true file).2.iotype = PIO_IOTYPE_NETCDF ∧
      (ioOpenPhase ios env true file).1 =
        (if ios.io_rank = 0 then env.retryOpenRes else PIO_NOERR)) ∧
    (∀ (ios : IOSys) (env : OpenEnv) (file : FileSt) (ierr c : Int),
      env.ierrBcastErr = 0 → env.modeBcastErr = 0 →
      ios.errorHandler ≠ PIO_INTERNAL_ERROR →
      finalizePhase ios env file ierr c =
        (if (if ios.iorootSelf = true then ierr else env.deliveredIerr) = 0
         then PRes.ok ⟨PIO_NOERR, some c,
           some { file with mode :=
             if ios.iorootSelf = true then file.mode
             else env.deliveredMode }, true, c + 1⟩
         else PRes.ok
           ⟨if ios.iorootSelf = true then ierr else env.deliveredIerr,
            none, some file, false, c⟩)) ∧
    (∀ (iosR : IOSys) (envR : OpenEnv) (fileR : FileSt) (ios : IOSys)
       (env : OpenEnv) (file : FileSt) (ierr c : Int),
      iosR.ioproc = true → iosR.io_rank = 0 →
      ((ioSwitch iosR envR fileR).1 = NC_ENOTNC ∨
        (ioSwitch iosR envR fileR).1 = NC_EINVAL) →
      (ioSwitch iosR envR fileR).2.iotype ≠ PIO_IOTYPE_NETCDF →
      env.ierrBcastErr = 0 → env.modeBcastErr = 0 →
      ios.errorHandler ≠ PIO_INTERNAL_ERROR → ios.iorootSelf = false →
      env.deliveredIerr = (ioOpenPhase iosR envR true fileR).1 →
      ∃ r : OpenOut, finalizePhase ios env file ierr c = PRes.ok r ∧
        r.ret = envR.retryOpenRes ∧
        (r.registered = true ↔ envR.retryOpenRes = 0)) := by
  refine ⟨ioOpenPhase_retry_false, ioOpenPhase_downgrade,
    finalizePhase_clean, ?_⟩
  intro iosR envR fileR ios env file ierr c hR1 hR2 hR3 hR4 h1 h2 hh hroot
    hdel
  have hret := (ioOpenPhase_downgrade iosR envR fileR hR1 hR3 hR4).2
  rw [hR2] at hret
  simp only [if_pos] at hret
  rw [hret] at hdel
  rw [finalizePhase_clean ios env file ierr c h1 h2 hh]
  rw [hroot]
  simp only [Bool.false_eq_true, if_false]
  rw [hdel]
  by_cases h0 : envR.retryOpenRes = 0
  · rw [if_pos h0]
    exact ⟨_, rfl, by simp [h0, PIO_NOERR], by simp [h0]⟩
  · rw [if_neg h0]
    exact ⟨_, rfl, rfl, by simp [h0]⟩

/-- Witness for C1 (amended), on the concrete retrying group: the root's
switch fails with `NC_ENOTNC` on a non-serial type, the retry downgrades
the root's type to serial netCDF with the serial open's outcome, the
coherent compute process succeeds exactly because the serial open
succeeded, and with `retry = false` the type is untouched. -/
theorem C1_open_retry_witness :
    (iosIoRoot.ioproc = true ∧ iosIoRoot.io_rank = 0 ∧
      (ioSwitch iosIoRoot envRetry fileC1).1 = NC_ENOTNC ∧
      (ioSwitch iosIoRoot envRetry fileC1).2.iotype ≠ PIO_IOTYPE_NETCDF) ∧
    ((ioOpenPhase iosIoRoot envRetry true fileC1).2.iotype =
        PIO_IOTYPE_NETCDF ∧
      (ioOpenPhase iosIoRoot envRetry true fileC1).1 =
        (if iosIoRoot.io_rank = 0 then envRetry.retryOpenRes
         else PIO_NOERR)) ∧
    (∃ r : OpenOut,
      finalizePhase iosCompNonRep envCompC1 fileC1comp 0 16 = PRes.ok r ∧
      r.ret = envRetry.retryOpenRes ∧
      (r.registered = true ↔ envRetry.retryOpenRes = 0)) ∧
    (ioOpenPhase iosIoRoot envRetry false fileC1).2.iotype =
      fileC1.iotype := by
  have T := C1_open_retry_amended
  refine ⟨⟨rfl, rfl, rfl, by decide⟩, ?_, ?_, ?_⟩
  · exact T.2.1 iosIoRoot envRetry fileC1 rfl (Or.inl rfl) (by decide)
  · exact T.2.2.2 iosIoRoot envRetry fileC1 iosCompNonRep envCompC1
      fileC1comp 0 16 rfl rfl (Or.inl rfl) (by decide) rfl rfl (by decide)
      rfl rfl
  · exact (T.1 iosIoRoot envRetry fileC1).1
